import Mathlib

/-!
Formal model of the `freedesktop-icon-lookup` crate (theme cache and icon
resolution engine), shallowly embedded in Lean.

The embedding follows the Rust sources:
* `src/directory.rs` — `Directory`, `DirectoryKind`, `Directory::is_matches`,
  `Directory::size_distance_range`, `Directory::size_distance`;
* `src/theme.rs` — `Theme`, `IconInfo`, `IconSearch`, `Theme::icon_search`;
* `src/lookup.rs` — `Cache`, `LookupParam`, `Cache::load_inner`,
  `Cache::lookup_themed`, `Cache::lookup_param`, `find_dir_icons`.

Machine integers (`u16`) are modelled as `Nat` with explicit saturating or
wrapping (`% 2^16`) arithmetic exactly where the Rust code saturates or can
wrap.  Filesystem access is abstracted: a search directory is a function from
a theme name to the `Theme` value that `Theme::new` would construct at that
root (or `none` when `root/theme` does not exist); directory enumeration is a
list of (file name, is-directory) entries.  Fallible code returns an explicit
result type.
-/

namespace IconLookup

/-- One more than the largest `u16` value. -/
def U16_MOD : Nat := 65536

/-- Rust `u16::saturating_add` (saturates at 65535). `u16::saturating_sub`
coincides with truncated `Nat` subtraction. -/
def satAdd16 (a b : Nat) : Nat := min (a + b) 65535

/-- Rust `u16::saturating_mul` (saturates at 65535). -/
def satMul16 (a b : Nat) : Nat := min (a * b) 65535

/-- `DirectoryKind` from src/directory.rs. -/
inductive DirectoryKind
  | fixed
  | scalable (min_size max_size : Nat)
  | threshold (threshold : Nat)
deriving DecidableEq, Repr

/-- `Directory` from src/directory.rs: one theme subdirectory's sizing
contract (`Size`, `Scale`, `Type`). -/
structure Directory where
  size : Nat
  scale : Nat
  kind : DirectoryKind
deriving DecidableEq, Repr

/-- `Directory::is_matches` from src/directory.rs:
returns `false` when the scale differs, otherwise checks the sizing policy;
the Threshold range uses `saturating_sub` / `saturating_add`. -/
def Directory.is_matches (d : Directory) (icon_size icon_scale : Nat) : Bool :=
  if d.scale ≠ icon_scale then false
  else
    match d.kind with
    | .fixed => d.size == icon_size
    | .scalable mn mx => decide (mn ≤ icon_size) && decide (icon_size ≤ mx)
    | .threshold t =>
        decide (d.size - t ≤ icon_size) && decide (icon_size ≤ satAdd16 d.size t)

/-- `Directory::size_distance_range` from src/directory.rs: the acceptable
range of scale-multiplied sizes, computed with saturating `u16` arithmetic. -/
def Directory.size_distance_range (d : Directory) : Nat × Nat :=
  match d.kind with
  | .fixed =>
      let scaled_size := satMul16 d.size d.scale
      (scaled_size, scaled_size)
  | .scalable mn mx => (satMul16 mn d.scale, satMul16 mx d.scale)
  | .threshold t => (d.size - t, satAdd16 d.size t)

/-- `Directory::size_distance` from src/directory.rs.  The Rust code computes
`icon_size * icon_scale` with a plain `u16` multiply, which wraps modulo
`2^16` in release builds (and is a panic in debug builds); the wrap is kept
explicitly.  The two subtractions are guarded by the comparisons. -/
def Directory.size_distance (d : Directory) (icon_size icon_scale : Nat) : Nat :=
  let icon_scaled_size := icon_size * icon_scale % U16_MOD
  let lr := d.size_distance_range
  if lr.1 > icon_scaled_size then lr.1 - icon_scaled_size
  else if lr.2 < icon_scaled_size then icon_scaled_size - lr.2
  else 0

/-! Spec-side vocabulary used to state the claims about `size_distance`
(the acceptable range written with plain products, and the absolute gap to
the nearest range edge). -/

/-- Lower edge of the acceptable range as the spec words it (plain products,
no saturation). -/
def range_lo (d : Directory) : Nat :=
  match d.kind with
  | .fixed => d.size * d.scale
  | .scalable mn _ => mn * d.scale
  | .threshold t => d.size - t

/-- Upper edge of the acceptable range as the spec words it. -/
def range_hi (d : Directory) : Nat :=
  match d.kind with
  | .fixed => d.size * d.scale
  | .scalable _ mx => mx * d.scale
  | .threshold t => d.size + t

/-- Absolute gap from `v` to the interval `[lo, hi]` (0 inside). -/
def gap (lo hi v : Nat) : Nat :=
  if v < lo then lo - v else if hi < v then v - hi else 0

/-- Well-formedness of a directory record, per the data-model invariants the
spec states for `DirectorySpec` (`min ≤ max` for Scalable) together with
`u16`-representability of the range edges (the fields come from `u16` values
whose products/sums stay in range for every real theme). -/
def directory_wf (d : Directory) : Prop :=
  match d.kind with
  | .fixed => d.size * d.scale ≤ 65535
  | .scalable mn mx => mn ≤ mx ∧ mx * d.scale ≤ 65535
  | .threshold t => d.size + t ≤ 65535

/-- `LookupParam` from src/lookup.rs: search parameters of
`Cache::lookup_param`. -/
structure LookupParam where
  name : String
  theme : Option String
  size : Option Nat
  scale : Option Nat
deriving DecidableEq, Repr

/-- `LookupParam::size` from src/lookup.rs: `self.size.unwrap_or(48)`. -/
def LookupParam.sizeVal (p : LookupParam) : Nat := p.size.getD 48

/-- `LookupParam::scale` from src/lookup.rs, verbatim: the body reads
`self.size.unwrap_or(1)` — the `size` field, not the `scale` field. -/
def LookupParam.scaleVal (p : LookupParam) : Nat := p.size.getD 1

/-- Helper: `size_distance` agrees with the absolute gap to the spec-side
acceptable range, for well-formed directories and a non-wrapping requested
product. -/
theorem size_distance_eq_gap (d : Directory) (s c : Nat)
    (hd : directory_wf d) (hsc : s * c ≤ 65535) :
    d.size_distance s c = gap (range_lo d) (range_hi d) (s * c) := by
  obtain ⟨size, scale, kind⟩ := d
  cases kind with
  | fixed =>
    simp only [directory_wf] at hd
    simp only [Directory.size_distance, Directory.size_distance_range, range_lo, range_hi, gap,
      satMul16, U16_MOD]
    rw [Nat.mod_eq_of_lt (by omega)]
    split_ifs <;> omega
  | scalable mn mx =>
    simp only [directory_wf] at hd
    obtain ⟨hmn, hmx⟩ := hd
    have h1 : mn * scale ≤ mx * scale := mul_le_mul_right' hmn scale
    simp only [Directory.size_distance, Directory.size_distance_range, range_lo, range_hi, gap,
      satMul16, U16_MOD]
    rw [Nat.mod_eq_of_lt (by omega)]
    split_ifs <;> omega
  | threshold t =>
    simp only [directory_wf] at hd
    simp only [Directory.size_distance, Directory.size_distance_range, range_lo, range_hi, gap,
      satAdd16, U16_MOD]
    rw [Nat.mod_eq_of_lt (by omega)]
    split_ifs <;> omega

/-- C1: `is_matches` holds exactly when the directory's scale equals the
requested scale and the requested size satisfies the sizing policy: Fixed —
equal to the directory size; Scalable — within `[min_size, max_size]`;
Threshold — within threshold of the nominal size (stated as
`size ≤ s + t ∧ s ≤ size + t`, the underflow-free reading of
`|s − size| ≤ t`, which is what the saturating code computes). -/
theorem c1_is_matches_policy (d : Directory) (s c : Nat) (hs : s < 65536) :
    d.is_matches s c = true ↔
      (d.scale = c ∧
        match d.kind with
        | .fixed => s = d.size
        | .scalable mn mx => mn ≤ s ∧ s ≤ mx
        | .threshold t => d.size ≤ s + t ∧ s ≤ d.size + t) := by
  obtain ⟨size, scale, kind⟩ := d
  by_cases h : scale = c
  · subst h
    cases kind <;>
      simp [Directory.is_matches, satAdd16] <;> omega
  · cases kind <;> simp [Directory.is_matches, h]

/-- Witness for C1 at the claim's near-zero instance: a Threshold directory
with nominal size 1, threshold 5 matches requested size 0 at scale 1 (no
underflow). -/
theorem c1_is_matches_policy_witness :
    (⟨1, 1, .threshold 5⟩ : Directory).is_matches 0 1 = true :=
  (c1_is_matches_policy ⟨1, 1, .threshold 5⟩ 0 1 (by decide)).mpr
    (by exact ⟨rfl, by norm_num, by norm_num⟩)

/-- C2, counterexample: for a Fixed directory with `size = 16, scale = 2` and
request `(size 16, scale 2)`, `size_distance` is 0 (the scaled size 32 hits
the scaled point 32), yet `is_matches` at the same inputs' scale-adjusted
size (32) is false — so "distance is 0 exactly when `matches` would be true
for the same inputs' scale-adjusted size" fails. -/
theorem c2_counterexample :
    Directory.size_distance ⟨16, 2, .fixed⟩ 16 2 = 0
    ∧ Directory.is_matches ⟨16, 2, .fixed⟩ (16 * 2) 2 = false := by
  decide

/-- C2 (amended): for a well-formed directory and a non-wrapping requested
product, `size_distance` is the absolute gap from the scale-multiplied
requested size to the policy's acceptable range (Fixed: the point
`size·scale`; Scalable: `[min·scale, max·scale]`; Threshold:
`[size − threshold, size + threshold]`, not scale-multiplied); it is 0 exactly
on the range, strictly positive off it, strictly monotone in the displacement
from the range, and — for directories of scale 1 — 0 exactly when
`is_matches` holds at the scale-adjusted size. -/
theorem c2_size_distance_spec (d : Directory) (s c : Nat)
    (hd : directory_wf d) (hsc : s * c ≤ 65535) :
    d.size_distance s c = gap (range_lo d) (range_hi d) (s * c)
    ∧ (d.size_distance s c = 0 ↔ range_lo d ≤ s * c ∧ s * c ≤ range_hi d)
    ∧ (range_lo d ≤ s * c ∧ s * c ≤ range_hi d ∨ 0 < d.size_distance s c)
    ∧ (d.scale = 1 → (d.size_distance s c = 0 ↔ d.is_matches (s * c) d.scale = true))
    ∧ (∀ u v : Nat, u ≤ 65535 → v ≤ 65535 →
        gap (range_lo d) (range_hi d) u < gap (range_lo d) (range_hi d) v →
        d.size_distance u 1 < d.size_distance v 1) := by
  have hgap := size_distance_eq_gap d s c hd hsc
  refine ⟨hgap, ?_, ?_, ?_, ?_⟩
  · rw [hgap]; simp only [gap]; split_ifs <;> omega
  · rw [hgap]; simp only [gap]; split_ifs <;> omega
  · intro h1
    rw [hgap]
    obtain ⟨size, scale, kind⟩ := d
    have h1' : scale = 1 := h1
    subst h1'
    cases kind with
    | fixed =>
      simp [Directory.is_matches, range_lo, range_hi, gap]
      split_ifs <;> omega
    | scalable mn mx =>
      simp [Directory.is_matches, range_lo, range_hi, gap]
      split_ifs <;> omega
    | threshold t =>
      simp only [directory_wf] at hd
      simp [Directory.is_matches, range_lo, range_hi, gap, satAdd16]
      split_ifs <;> omega
  · intro u v hu hv hlt
    rw [size_distance_eq_gap d u 1 hd (by omega), size_distance_eq_gap d v 1 hd (by omega)]
    simpa using hlt

/-- Witness for C2 (amended) at a concrete Threshold instance: requested
size 20 at scale 1 against a Threshold directory of size 16, threshold 2 is
at distance `gap 14 18 20 = 2`. -/
theorem c2_size_distance_spec_witness :
    Directory.size_distance ⟨16, 1, .threshold 2⟩ 20 1
      = gap (range_lo ⟨16, 1, .threshold 2⟩) (range_hi ⟨16, 1, .threshold 2⟩) (20 * 1) :=
  (c2_size_distance_spec ⟨16, 1, .threshold 2⟩ 20 1
    (show 16 + 2 ≤ 65535 by omega) (by omega)).1

/-- C3: in the code, `LookupParam::scale` returns `self.size.unwrap_or(1)`:
with `size = Some 32, scale = None` the ranker's scale is 32 (the claim says
1), and with `scale = Some 7, size = None` it is 1 (ignoring the explicit
scale); `LookupParam::size` does default to 48 when unspecified. -/
theorem c3_scale_default_reads_size_field :
    LookupParam.scaleVal ⟨"icon", none, some 32, none⟩ = 32
    ∧ LookupParam.scaleVal ⟨"icon", none, none, some 7⟩ = 1
    ∧ LookupParam.sizeVal ⟨"icon", none, none, some 7⟩ = 48 :=
  ⟨rfl, rfl, rfl⟩

/-- C4: `size_distance` computes the requested scaled size with a plain `u16`
multiply; at a Fixed directory of size 100, scale 1 and request
`(size 256, scale 256)` the product `256·256 = 65536` wraps to 0, so the code
returns 100 while the true gap to the acceptable range is 65436. -/
theorem c4_size_distance_wraps :
    Directory.size_distance ⟨100, 1, .fixed⟩ 256 256 = 100
    ∧ gap (range_lo ⟨100, 1, .fixed⟩) (range_hi ⟨100, 1, .fixed⟩) (256 * 256) = 65436
    ∧ Directory.size_distance ⟨100, 1, .fixed⟩ 256 256
        ≠ gap (range_lo ⟨100, 1, .fixed⟩) (range_hi ⟨100, 1, .fixed⟩) (256 * 256) := by
  decide

/-! ## Theme model (src/theme.rs) -/

/-- `IconInfo` from src/theme.rs: one on-disk icon file, a path relative to
the theme root (paths are modelled as component lists) plus the owning
`Directory`. -/
structure IconInfo where
  path : List String
  directory : Directory
deriving DecidableEq, Repr

/-- `Theme` from src/theme.rs: the absolute theme root, the icon-name →
candidate-list mapping, and the `Inherits` names (comma-split and trimmed by
`Theme::new`).  The construction itself (INI parsing, directory enumeration)
is external I/O; a `Theme` value stands for what `Theme::new` built. -/
structure Theme where
  path : List String
  icon_infos : List (String × List IconInfo)
  inherits : List String
deriving DecidableEq, Repr

/-- `IconSearch` from src/theme.rs: a found theme/icon pairing. -/
structure IconSearch where
  theme_path : List String
  info : IconInfo
deriving DecidableEq, Repr

/-- `IconSearch::path`: `self.theme.path.join(&self.info.path)`. -/
def IconSearch.path (s : IconSearch) : List String := s.theme_path ++ s.info.path

/-- Association-list lookup, the model of `HashMap::get` (and of
`hash_map.contains_key` via `isSome`). -/
def alist_get {α : Type} : List (String × α) → String → Option α
  | [], _ => none
  | (k, v) :: rest, key => if k = key then some v else alist_get rest key

/-- `Theme::icon_search` from src/theme.rs: look the name up in the mapping,
run the searcher over the candidate list, and index into it. -/
def Theme.icon_search (t : Theme) (name : String)
    (searcher : List IconInfo → Option Nat) : Option IconSearch :=
  match alist_get t.icon_infos name with
  | none => none
  | some icons =>
    match searcher icons with
    | none => none
    | some idx => (icons.get? idx).map (fun info => ⟨t.path, info⟩)

/-- `Theme::inherits` as src/lookup.rs consumes it.  src/theme.rs declares
`fn inherits(&self) -> &[String]` (the full comma-split list), but both uses
in src/lookup.rs treat the result as an `Option` of a single name
(`if let Some(inherits) = t.inherits()` in `load_inner`,
`filter_map(|t| t.inherits())` in `lookup_themed`), which does not type-check
against the slice-returning signature; the single name such an `Option`
interface can yield is the first declared parent, so it is modelled as
`head?`. -/
def Theme.inheritsOpt (t : Theme) : Option String := t.inherits.head?

/-! ## Cache model (src/lookup.rs) -/

/-- `DEFAULT_THEME` from src/lookup.rs. -/
def DEFAULT_THEME : String := "hicolor"

/-- `Cache` from src/lookup.rs: loaded themes (name → occurrences, one per
search root) and the `/usr/share/pixmaps` fallback mapping (name → absolute
path). -/
structure Cache where
  themes : List (String × List Theme)
  pixmaps : List (String × List String)
deriving DecidableEq, Repr

/-- `self.themes.entry(theme).or_default().push(t)`. -/
def pushTheme : List (String × List Theme) → String → Theme → List (String × List Theme)
  | [], key, t => [(key, [t])]
  | (k, ts) :: rest, key, t =>
    if k = key then (k, ts ++ [t]) :: rest else (k, ts) :: pushTheme rest key t

/-- Result of `Cache::load` (`Result<(), Error>` plus the mutated cache):
only `CycleDetected` can arise in the model, since theme construction and
filesystem errors are external I/O outcomes outside the resolution
algorithm. -/
inductive LoadRes
  | ok (st : Cache)
  | cycleDetected
deriving DecidableEq, Repr

/-- One search root, abstracted: maps a theme name to the `Theme` that
`Theme::new(root.join(name))` would construct there, `none` when
`root/name` does not exist. -/
def SearchDir : Type := String → Option Theme

/-- The `for path in search_dirs()` loop body of `Cache::load_inner`
(src/lookup.rs lines 67–78), parametrised by the recursive call used for the
inherited theme: skip roots that lack the theme, otherwise recursively load
the inherited name (if any) and then push the constructed theme. -/
def load_dirs (loadRec : Cache → String → LoadRes) (theme : String) :
    List SearchDir → Cache → LoadRes
  | [], st => .ok st
  | d :: rest, st =>
    match d theme with
    | none => load_dirs loadRec theme rest st
    | some t =>
      match (match t.inheritsOpt with
             | some inh => loadRec st inh
             | none => .ok st) with
      | .cycleDetected => .cycleDetected
      | .ok st' => load_dirs loadRec theme rest ⟨pushTheme st'.themes theme t, st'.pixmaps⟩

/-- `Cache::load_inner` from src/lookup.rs: a no-op for an already-loaded
name, `CycleDetected` past the depth cap, otherwise the search-root loop.
The Rust guard is `depth > 10` with `depth + 1` at the recursive call; with
`fuel = 11 − depth` (so 11 at the `Cache::load` entry point) the guard is
`fuel = 0` and the recursive call gets `fuel − 1`. -/
def load_inner (fs : List SearchDir) : Nat → Cache → String → LoadRes
  | fuel, st, theme =>
    if (alist_get st.themes theme).isSome then .ok st
    else
      match fuel with
      | 0 => .cycleDetected
      | fuel' + 1 => load_dirs (fun st' inh => load_inner fs fuel' st' inh) theme fs st

/-- `Cache::load`: `load_inner(theme, 0)`, i.e. full fuel 11. -/
def load (fs : List SearchDir) (st : Cache) (theme : String) : LoadRes :=
  load_inner fs 11 st theme

/-- The first `for theme in themes` loop of `Cache::lookup_themed`: return
the first occurrence's successful `icon_search`. -/
def theme_hits (icon_name : String) (f : List IconInfo → Option Nat) :
    List Theme → Option IconSearch
  | [] => none
  | t :: rest =>
    match t.icon_search icon_name f with
    | some s => some s
    | none => theme_hits icon_name f rest

/-- The second loop of `Cache::lookup_themed`, over
`themes.iter().filter_map(|t| t.inherits())`: first successful recursive
lookup among the parents. -/
def search_parents (lookupRec : String → Option IconSearch) :
    List String → Option IconSearch
  | [] => none
  | p :: rest =>
    match lookupRec p with
    | some s => some s
    | none => search_parents lookupRec rest

/-- `Cache::lookup_themed` from src/lookup.rs: `none` past the depth cap
(`fuel = 11 − depth` as in `load_inner`), `none` for a theme name that is not
loaded, otherwise the occurrences' own hits first and then the recursive walk
of the parents. -/
def lookup_themed (c : Cache) (f : List IconInfo → Option Nat) (icon_name : String) :
    Nat → String → Option IconSearch
  | 0, _ => none
  | fuel + 1, theme =>
    match alist_get c.themes theme with
    | none => none
    | some ts =>
      match theme_hits icon_name f ts with
      | some s => some s
      | none =>
          search_parents (fun p => lookup_themed c f icon_name fuel p)
            (ts.filterMap Theme.inheritsOpt)

/-- Rust `Iterator::position` (used for the exact-match scan in
`Cache::lookup_param`): index of the first element satisfying the
predicate. -/
def position {α : Type} (p : α → Bool) : List α → Option Nat
  | [] => none
  | a :: rest => if p a then some 0 else (position p rest).map (· + 1)

/-- Rust `Iterator::min_by_key` over `enumerate()` (the distance scan in
`Cache::lookup_param`): index of the first element with minimal key
(`min_by_key` keeps the first of several equal minima). -/
def min_by_idx {α : Type} (key : α → Nat) : List α → Option Nat
  | [] => none
  | a :: rest =>
    match min_by_idx key rest with
    | none => some 0
    | some j =>
      match rest.get? j with
      | none => some 0
      | some b => if key a ≤ key b then some 0 else some (j + 1)

/-- The ranking closure `Cache::lookup_param` passes to `lookup_themed`:
first exact `is_matches` hit, otherwise the minimum-`size_distance`
candidate.  It reads the requested size and scale through `LookupParam::size`
and `LookupParam::scale` (see `LookupParam.scaleVal`). -/
def default_ranker (p : LookupParam) (infos : List IconInfo) : Option Nat :=
  match position (fun i => i.directory.is_matches p.sizeVal p.scaleVal) infos with
  | some idx => some idx
  | none => min_by_idx (fun i => i.directory.size_distance p.sizeVal p.scaleVal) infos

/-- `Cache::lookup_param` from src/lookup.rs: the themed walk (from the
requested theme, or `hicolor`) mapped to an absolute path, with the pixmap
mapping as fallback. -/
def lookup_param (c : Cache) (p : LookupParam) : Option (List String) :=
  match (lookup_themed c (default_ranker p) p.name 11 (p.theme.getD DEFAULT_THEME)).map
      IconSearch.path with
  | some path => some path
  | none => alist_get c.pixmaps p.name

/-! ## Directory enumeration keys (`find_dir_icons`, src/lookup.rs) -/

/-- Rust `str::rfind(char)`: index of the last occurrence, i.e. the mirrored
position of the first occurrence in the reversed name (file names are
modelled as character lists; the Rust byte index of a `'.'` and the character
index delimit the same prefix). -/
def rfind_idx (ch : Char) (l : List Char) : Option Nat :=
  match position (fun x => x = ch) l.reverse with
  | some i => some (l.length - 1 - i)
  | none => none

/-- The key computation of `find_dir_icons`:
`&icon_name[0..icon_name.rfind('.').unwrap_or(0)]`. -/
def icon_key (name : List Char) : List Char :=
  name.take ((rfind_idx '.' name).getD 0)

/-- `find_dir_icons` from src/lookup.rs over an abstract directory listing
(file name, is-directory): every non-directory entry is reported as
(lookup key, file name); I/O errors are external outcomes and the
permission/not-found recovery leaves the listing itself abstract. -/
def find_dir_icons (entries : List (List Char × Bool)) :
    List (List Char × List Char) :=
  entries.filterMap (fun e => if e.2 then none else some (icon_key e.1, e.1))

/-! ## Concrete filesystems and helper lemmas -/

/-- Whether a load succeeded. -/
def LoadRes.isOk : LoadRes → Bool
  | .ok _ => true
  | .cycleDetected => false

/-- A search root described by an association list of theme directories. -/
def dir_of (l : List (String × Theme)) : SearchDir := fun n => alist_get l n

/-- A theme directory with no icons, declaring the given `Inherits` names. -/
def bare_theme (inh : List String) : Theme := ⟨[], [], inh⟩

/-- A freshly constructed cache with no loaded themes and no pixmaps. -/
def empty_cache : Cache := ⟨[], []⟩

/-- A linear inheritance chain: each listed theme inherits the next one. -/
def chain : List String → List (String × Theme)
  | [] => []
  | [n] => [(n, bare_theme [])]
  | n :: m :: rest => (n, bare_theme [m]) :: chain (m :: rest)

/-- Filesystem for C5: theme `x` declares `Inherits = a, b` with both
parents present. -/
def c5_fs : List SearchDir :=
  [dir_of [("x", bare_theme ["a", "b"]), ("a", bare_theme []), ("b", bare_theme [])]]

/-- The cache state `load` actually produces on `c5_fs`. -/
def c5_state : Cache :=
  ⟨[("a", [bare_theme []]), ("x", [bare_theme ["a", "b"]])], []⟩

theorem position_eq_none {α : Type} (p : α → Bool) (l : List α)
    (h : ∀ x ∈ l, p x = false) : position p l = none := by
  induction l with
  | nil => rfl
  | cons a rest ih => simp_all [position]

theorem position_append_cons_true {α : Type} (p : α → Bool) (l₁ : List α) (x : α)
    (l₂ : List α) (h : position p l₁ = none) (hx : p x = true) :
    position p (l₁ ++ x :: l₂) = some l₁.length := by
  induction l₁ with
  | nil => simp [position, hx]
  | cons a rest ih =>
    simp only [position] at h
    cases hpa : p a with
    | true => simp [hpa] at h
    | false =>
      simp only [hpa] at h
      simp only [Bool.false_eq_true, if_false, Option.map_eq_none'] at h
      rw [List.cons_append]
      simp [position, hpa, ih h]

theorem position_some_lt {α : Type} {p : α → Bool} {l : List α} {i : Nat}
    (h : position p l = some i) : i < l.length := by
  induction l generalizing i with
  | nil => simp [position] at h
  | cons a rest ih =>
    simp only [position] at h
    simp only [List.length_cons]
    by_cases hpa : p a = true
    · simp [hpa] at h
      omega
    · simp [hpa] at h
      obtain ⟨j, hj, rfl⟩ := h
      have := ih hj
      omega

theorem min_by_idx_some_lt {α : Type} {key : α → Nat} {l : List α} {i : Nat}
    (h : min_by_idx key l = some i) : i < l.length := by
  induction l generalizing i with
  | nil => simp [min_by_idx] at h
  | cons a rest ih =>
    simp only [min_by_idx] at h
    simp only [List.length_cons]
    split at h
    · simp at h
      omega
    · rename_i j heq
      split at h
      · simp at h
        omega
      · split at h
        · simp at h
          omega
        · simp at h
          have := ih heq
          omega

theorem min_by_idx_isSome {α : Type} (key : α → Nat) (a : α) (rest : List α) :
    (min_by_idx key (a :: rest)).isSome = true := by
  simp only [min_by_idx]
  split
  · simp
  · split
    · simp
    · split <;> simp

theorem min_by_idx_total {α : Type} (key : α → Nat) (l : List α) (h : l ≠ []) :
    ∃ i, min_by_idx key l = some i ∧ i < l.length := by
  match l, h with
  | a :: rest, _ =>
    have h1 := min_by_idx_isSome key a rest
    obtain ⟨i, hi⟩ := Option.isSome_iff_exists.mp h1
    exact ⟨i, hi, min_by_idx_some_lt hi⟩

theorem default_ranker_total (p : LookupParam) (infos : List IconInfo)
    (h : infos ≠ []) :
    ∃ i, default_ranker p infos = some i ∧ i < infos.length := by
  cases hpos : position (fun i => i.directory.is_matches p.sizeVal p.scaleVal) infos with
  | some idx =>
    exact ⟨idx, by simp [default_ranker, hpos], position_some_lt hpos⟩
  | none =>
    obtain ⟨i, hi, hlt⟩ :=
      min_by_idx_total (fun i => i.directory.size_distance p.sizeVal p.scaleVal) infos h
    exact ⟨i, by simp [default_ranker, hpos, hi], hlt⟩

theorem lookup_themed_none (c : Cache) (f : List IconInfo → Option Nat)
    (n t : String) (h : alist_get c.themes t = none) (fuel : Nat) :
    lookup_themed c f n fuel t = none := by
  cases fuel with
  | zero => rfl
  | succ fuel => simp [lookup_themed, h]

theorem lookup_themed_hit (c : Cache) (f : List IconInfo → Option Nat)
    (n t : String) (ts : List Theme) (s : IconSearch) (fuel : Nat)
    (hts : alist_get c.themes t = some ts) (hhit : theme_hits n f ts = some s) :
    lookup_themed c f n (fuel + 1) t = some s := by
  simp [lookup_themed, hts, hhit]

theorem icon_search_none_of_miss (p : LookupParam) (t : Theme)
    (h : alist_get t.icon_infos p.name = none
        ∨ alist_get t.icon_infos p.name = some []) :
    t.icon_search p.name (default_ranker p) = none := by
  cases h with
  | inl h => simp [Theme.icon_search, h]
  | inr h => simp [Theme.icon_search, h, default_ranker, position, min_by_idx]

theorem icon_search_isSome_of_hit (p : LookupParam) (t : Theme) (l : List IconInfo)
    (hl : alist_get t.icon_infos p.name = some l) (hne : l ≠ []) :
    (t.icon_search p.name (default_ranker p)).isSome = true := by
  obtain ⟨i, hi, hlt⟩ := default_ranker_total p l hne
  have hg : l[i]? = some l[i] := List.getElem?_eq_getElem hlt
  simp [Theme.icon_search, hl, hi, hg]

theorem theme_hits_first (p : LookupParam) (pre post : List Theme) (t0 : Theme)
    (s : IconSearch)
    (hmiss : ∀ t ∈ pre, alist_get t.icon_infos p.name = none
        ∨ alist_get t.icon_infos p.name = some [])
    (hs : t0.icon_search p.name (default_ranker p) = some s) :
    theme_hits p.name (default_ranker p) (pre ++ t0 :: post) = some s := by
  induction pre with
  | nil => simp [theme_hits, hs]
  | cons a pre ih =>
    have ha := icon_search_none_of_miss p a (hmiss a (by simp))
    rw [List.cons_append]
    simp only [theme_hits, ha]
    exact ih (fun t ht => hmiss t (by simp [ht]))

theorem take_len_append {α : Type} (a b : List α) : (a ++ b).take a.length = a := by
  induction a with
  | nil => simp
  | cons x a ih => simp [ih]

/-! ## Claims C5–C10 -/

/-- C5: the loader follows only a single optional inherited name per
constructed theme (src/lookup.rs consumes `Theme::inherits` through an
`Option`), so for a theme `x` declaring `Inherits = a, b` the load succeeds
but only parent `a` ends up loaded — parent `b` is never loaded. -/
theorem c5_only_first_parent_loaded :
    load c5_fs empty_cache ("x") = .ok c5_state
    ∧ (alist_get c5_state.themes ("a")).isSome = true
    ∧ (alist_get c5_state.themes ("b")).isSome = false := by
  decide

/-- C6: a theme whose `Inherits` chain cycles back to itself fails to load
with `CycleDetected`; a linear chain 9 inheritance links deep (10 themes)
loads successfully; a chain 11 links deep (12 themes) fails with
`CycleDetected` — the recursion-depth guard is `depth > 10`. -/
theorem c6_inheritance_depth_cap :
    load [dir_of [("a", bare_theme ["a"])]] empty_cache ("a") = .cycleDetected
    ∧ (load [dir_of (chain ["a", "b", "c", "d", "e", "f", "g", "h", "i", "j"])]
        empty_cache ("a")).isOk = true
    ∧ load [dir_of (chain ["a", "b", "c", "d", "e", "f", "g", "h", "i", "j", "k", "l"])]
        empty_cache ("a") = .cycleDetected := by
  decide

/-- C7: when the cache already holds the requested theme name, `load` (and
`load_inner` at any depth) returns success with the cache state completely
unchanged; the result does not depend on the filesystem at all (the search
roots `fs` are arbitrary), i.e. no scanning is performed. -/
theorem c7_load_idempotent (fs : List SearchDir) (fuel : Nat) (st : Cache)
    (name : String) (h : (alist_get st.themes name).isSome = true) :
    load fs st name = .ok st ∧ load_inner fs fuel st name = .ok st := by
  have key : ∀ fl, load_inner fs fl st name = .ok st := by
    intro fl
    rw [load_inner.eq_def]
    simp [h]
  exact ⟨key 11, key fuel⟩

/-- Cache with theme `a` loaded, for the C7 witness. -/
def c7_cache : Cache := ⟨[("a", [bare_theme []])], []⟩

/-- Witness for C7: re-loading the already-loaded theme `a` over an empty
filesystem succeeds and returns the cache unchanged. -/
theorem c7_load_idempotent_witness :
    load [] c7_cache ("a") = .ok c7_cache :=
  (c7_load_idempotent [] 0 c7_cache ("a") (by decide)).1

/-- C8: lookups are total (they return an `Option`, never an error) and fall
back to the pixmap mapping: if the requested theme name is not loaded, or
more generally whenever the whole themed inheritance walk produces nothing,
`lookup_param` returns exactly the pixmap entry for the icon name. -/
theorem c8_lookup_fallback (c : Cache) (p : LookupParam) :
    (alist_get c.themes (p.theme.getD DEFAULT_THEME) = none →
        lookup_param c p = alist_get c.pixmaps p.name)
    ∧ (lookup_themed c (default_ranker p) p.name 11 (p.theme.getD DEFAULT_THEME) = none →
        lookup_param c p = alist_get c.pixmaps p.name) := by
  have step2 : lookup_themed c (default_ranker p) p.name 11 (p.theme.getD DEFAULT_THEME) = none →
      lookup_param c p = alist_get c.pixmaps p.name := fun h2 => by
    simp [lookup_param, h2]
  exact ⟨fun h => step2 (lookup_themed_none c _ p.name _ h 11), step2⟩

/-- Cache with no themes and one pixmap, for the C8 witness. -/
def c8_cache : Cache := ⟨[], [("foo", ["usr", "share", "pixmaps", "foo.png"])]⟩

/-- Witness for C8: a name present only in the pixmap mapping resolves to
that pixmap's absolute path even though no theme is loaded. -/
theorem c8_lookup_fallback_witness :
    lookup_param c8_cache ⟨"foo", none, none, none⟩
      = some ["usr", "share", "pixmaps", "foo.png"] := by
  have h := (c8_lookup_fallback c8_cache ⟨"foo", none, none, none⟩).1 rfl
  rw [h]
  decide

/-- C9, counterexample: `find_dir_icons` indexes the dot-less file name
`firefox` under the empty key, not under its full name — the key computation
is `name[0..name.rfind('.').unwrap_or(0)]`, and `unwrap_or(0)` yields the
empty prefix. -/
theorem c9_counterexample :
    find_dir_icons [("firefox".toList, false)] = [([], "firefox".toList)]
    ∧ icon_key ("firefox".toList) ≠ "firefox".toList := by
  decide

/-- C9 (amended): the lookup key of an enumerated file name is the portion
before the last dot — for a name with an extension `stem.ext` (no dot in
`ext`) the key is `stem` — but a name containing no dot at all is indexed
under the empty key, not under its full name. -/
theorem c9_icon_key_spec :
    (∀ l : List Char, '.' ∉ l → icon_key l = [])
    ∧ (∀ (a b : List Char), '.' ∉ b → icon_key (a ++ '.' :: b) = a) := by
  constructor
  · intro l hl
    have h : position (fun x => x = '.') l.reverse = none :=
      position_eq_none _ _ (fun x hx => by
        simp only [decide_eq_false_iff_not]
        intro hx'
        subst hx'
        exact hl (List.mem_reverse.mp hx))
    simp [icon_key, rfind_idx, h]
  · intro a b hb
    have h1 : position (fun x => x = '.') b.reverse = none :=
      position_eq_none _ _ (fun x hx => by
        simp only [decide_eq_false_iff_not]
        intro hx'
        subst hx'
        exact hb (List.mem_reverse.mp hx))
    have h2 : (a ++ '.' :: b).reverse = b.reverse ++ '.' :: a.reverse := by
      simp [List.reverse_append]
    have h3 : position (fun x => x = '.') ((a ++ '.' :: b).reverse)
        = some b.reverse.length := by
      rw [h2]
      exact position_append_cons_true _ _ _ _ h1 (by simp)
    have h4 : (a ++ '.' :: b).length - 1 - b.reverse.length = a.length := by
      simp
    simp only [icon_key, rfind_idx, h3, Option.getD_some, h4]
    exact take_len_append a ('.' :: b)

/-- Witness for C9 (amended): `firefox.png` is indexed under `firefox`. -/
theorem c9_icon_key_spec_witness :
    icon_key ("firefox".toList ++ '.' :: "png".toList) = "firefox".toList :=
  c9_icon_key_spec.2 ("firefox".toList) ("png".toList) (by decide)

/-- C10: the default ranker of `lookup_param` is total on non-empty
candidate lists (first exact `is_matches` hit, else a minimum-distance
candidate, which always exists); consequently, when the requested icon name
is indexed (with a non-empty candidate list) in some occurrence of the
requested theme, `lookup_param` answers from the first such occurrence —
the result is that occurrence's own `icon_search`, so neither parent themes
nor the pixmap fallback are consulted. -/
theorem c10_first_occurrence_wins (p : LookupParam) :
    (∀ infos : List IconInfo, infos ≠ [] →
        ∃ i, default_ranker p infos = some i ∧ i < infos.length)
    ∧ (∀ (c : Cache) (pre post : List Theme) (t0 : Theme) (l : List IconInfo),
        alist_get c.themes (p.theme.getD DEFAULT_THEME) = some (pre ++ t0 :: post) →
        (∀ t ∈ pre, alist_get t.icon_infos p.name = none
            ∨ alist_get t.icon_infos p.name = some []) →
        alist_get t0.icon_infos p.name = some l → l ≠ [] →
        (t0.icon_search p.name (default_ranker p)).isSome = true
        ∧ lookup_param c p
            = (t0.icon_search p.name (default_ranker p)).map IconSearch.path) := by
  constructor
  · exact fun infos h => default_ranker_total p infos h
  · intro c pre post t0 l hts hmiss hl hne
    have hS := icon_search_isSome_of_hit p t0 l hl hne
    obtain ⟨s, hs⟩ := Option.isSome_iff_exists.mp hS
    have hth := theme_hits_first p pre post t0 s hmiss hs
    have hlk : lookup_themed c (default_ranker p) p.name 11 (p.theme.getD DEFAULT_THEME)
        = some s := by
      have h11 : (11 : Nat) = 10 + 1 := rfl
      rw [h11]
      exact lookup_themed_hit c _ p.name _ _ s 10 hts hth
    refine ⟨hS, ?_⟩
    simp [lookup_param, hlk, hs]

/-- Concrete icon record for the C10 witness. -/
def c10_info : IconInfo := ⟨["f.png"], ⟨48, 1, .fixed⟩⟩

/-- Theme indexing the name `ic` for the C10 witness. -/
def c10_theme : Theme := ⟨["r"], [("ic", [c10_info])], []⟩

/-- Cache for the C10 witness: `hicolor` indexes `ic`, and a pixmap entry
for `ic` also exists but must not win. -/
def c10_cache : Cache := ⟨[("hicolor", [c10_theme])], [("ic", ["pix"])]⟩

/-- Witness for C10: with the name indexed in the requested theme itself,
`lookup_param` answers from that theme, not from the pixmap fallback. -/
theorem c10_first_occurrence_wins_witness :
    lookup_param c10_cache ⟨"ic", none, none, none⟩ = some ["r", "f.png"] := by
  have h := ((c10_first_occurrence_wins ⟨"ic", none, none, none⟩).2 c10_cache [] []
    c10_theme [c10_info] (by decide) (by simp) (by decide) (by simp)).2
  rw [h]
  decide

end IconLookup
